import Mathlib

/-!
Shallow embedding of `src/a5er_parser.py` (A5:ER file parser).

Strings are modelled as `List Char` (abbreviated `Str`); Python string
operations (`strip`, `split`, `startswith`, slicing, `upper`, `in`) are
embedded as executable functions on `List Char`, restricted to the ASCII
whitespace/case behaviour that the file format uses.  The two compiled
regular expressions `_FIELD_PATTERN` and `_INDEX_PATTERN` are deterministic
(every quantifier is over a character class that excludes the character
that follows it), so they are embedded as straight-line scanners.
-/

namespace A5er

/-- Python `str` is modelled as a list of characters. -/
abbrev Str := List Char

/-- ASCII whitespace as recognised by Python's `str.strip()` and the regex
class `\s` (space, tab, newline, carriage return, vertical tab, form feed). -/
def pyIsSpace (c : Char) : Bool :=
  c = ' ' || c = '\t' || c = '\n' || c = '\r' || c = '\x0b' || c = '\x0c'

/-- Python `s.strip()`: remove leading and trailing whitespace. -/
def pyStrip (s : Str) : Str :=
  ((s.dropWhile pyIsSpace).reverse.dropWhile pyIsSpace).reverse

/-- Python `s.split(sep)` for a single-character separator. -/
def splitOnChar (sep : Char) : Str → List Str
  | [] => [[]]
  | c :: cs =>
    if c = sep then [] :: splitOnChar sep cs
    else
      match splitOnChar sep cs with
      | [] => [[c]]
      | g :: gs => (c :: g) :: gs

/-- Python `s.upper()` (ASCII letters). -/
def toUpperL (s : Str) : Str := s.map Char.toUpper

/-- Python `sub in s` (substring containment). -/
def containsSub (pat : Str) : Str → Bool
  | [] => pat.isEmpty
  | c :: cs => pat.isPrefixOf (c :: cs) || containsSub pat cs

/-- Consume an exact literal at the head of the input, returning the rest. -/
def dropLit : Str → Str → Option Str
  | [], s => some s
  | _ :: _, [] => none
  | p :: ps, c :: cs => if c = p then dropLit ps cs else none

/-- Consume one expected character. -/
def expectChar (c : Char) : Str → Option Str
  | [] => none
  | x :: xs => if x = c then some xs else none

/-- Regex fragment `([^stop]*)stop`: the group of characters before the
first occurrence of `stop`, and the rest after it; fails if `stop` is
absent. -/
def scanGroup (stop : Char) : Str → Option (Str × Str)
  | [] => none
  | c :: cs =>
    if c = stop then some ([], cs)
    else
      match scanGroup stop cs with
      | some (g, rest) => some (c :: g, rest)
      | none => none

/-! ## Data model (the frozen dataclasses) -/

/-- `Column` dataclass. -/
structure Column where
  logical_name : Str
  physical_name : Str
  data_type : Str
  not_null : Bool
  is_pk : Bool
  deriving Repr, DecidableEq

/-- `TableIndex` dataclass. -/
structure TableIndex where
  name : Str
  is_unique : Bool
  columns : List Str
  deriving Repr, DecidableEq

/-- `Table` dataclass. -/
structure Table where
  physical_name : Str
  logical_name : Str
  page : Str
  columns : List Column
  indexes : List TableIndex
  deriving Repr, DecidableEq

/-- `ForeignKey` dataclass. -/
structure ForeignKey where
  parent_table : Str
  child_table : Str
  parent_column : Str
  child_column : Str
  deriving Repr, DecidableEq

/-! ## The two regular expressions -/

/-- `_FIELD_PATTERN.match(line)`:
`Field="([^"]*)",\s*"([^"]*)",\s*"([^"]*)",\s*"([^"]*)",\s*([^,]*)`,
anchored at the start of the line, returning the five groups. -/
def matchField (line : Str) : Option (Str × Str × Str × Str × Str) := do
  let r ← dropLit ("Field=\"".toList) line
  let (g1, r) ← scanGroup '"' r
  let r ← expectChar ',' r
  let r ← expectChar '"' (r.dropWhile pyIsSpace)
  let (g2, r) ← scanGroup '"' r
  let r ← expectChar ',' r
  let r ← expectChar '"' (r.dropWhile pyIsSpace)
  let (g3, r) ← scanGroup '"' r
  let r ← expectChar ',' r
  let r ← expectChar '"' (r.dropWhile pyIsSpace)
  let (g4, r) ← scanGroup '"' r
  let r ← expectChar ',' r
  let g5 := (r.dropWhile pyIsSpace).takeWhile (fun c => c ≠ ',')
  return (g1, g2, g3, g4, g5)

/-- `_INDEX_PATTERN.match(line)`: `Index=([^=]+)=(\d+),(.+)`, anchored at
the start of the line, returning the three groups (`[^=]+` and `\d+` and
`.+` must each be non-empty; `.` excludes the newline). -/
def matchIndex (line : Str) : Option (Str × Str × Str) :=
  match dropLit ("Index=".toList) line with
  | none => none
  | some r0 =>
    match scanGroup '=' r0 with
    | none => none
    | some (g1, r1) =>
      if g1.isEmpty then none
      else if (r1.takeWhile Char.isDigit).isEmpty then none
      else
        match expectChar ',' (r1.drop (r1.takeWhile Char.isDigit).length) with
        | none => none
        | some r2 =>
          if (r2.takeWhile (fun c => c ≠ '\n')).isEmpty then none
          else some (g1, r1.takeWhile Char.isDigit, r2.takeWhile (fun c => c ≠ '\n'))

/-! ## Line parsers -/

/-- `A5erParser._parse_column`. -/
def parseColumn (line : Str) : Option Column :=
  match matchField line with
  | none => none
  | some (g1, g2, g3, g4, g5) =>
    some { logical_name := g1
           physical_name := g2
           data_type := g3
           not_null := containsSub ("NOT NULL".toList) (toUpperL g4)
           is_pk := pyStrip g5 == "0".toList }

/-- `A5erParser._parse_index`. -/
def parseIndex (line : Str) : Option TableIndex :=
  match matchIndex line with
  | none => none
  | some (g1, g2, g3) =>
    some { name := g1
           is_unique := g2 == "1".toList
           columns := (splitOnChar ',' g3).map pyStrip }

/-! ## Section parsing -/

/-- State of the `[Entity]` body scan in `A5erParser._parse_table`. -/
structure EntityState where
  physical_name : Str
  logical_name : Str
  page : Str
  columns : List Column
  indexes : List TableIndex
  deriving Repr, DecidableEq

/-- One iteration of the `[Entity]` body loop: strip the line, test the
five prefixes in the source's order, update the matching component. -/
def entityStep (st : EntityState) (l : Str) : EntityState :=
  if ("PName=".toList).isPrefixOf (pyStrip l) then
    { st with physical_name := (pyStrip l).drop 6 }
  else if ("LName=".toList).isPrefixOf (pyStrip l) then
    { st with logical_name := (pyStrip l).drop 6 }
  else if ("Page=".toList).isPrefixOf (pyStrip l) then
    { st with page := (pyStrip l).drop 5 }
  else if ("Field=".toList).isPrefixOf (pyStrip l) then
    match parseColumn (pyStrip l) with
    | some c => { st with columns := st.columns ++ [c] }
    | none => st
  else if ("Index=".toList).isPrefixOf (pyStrip l) then
    match parseIndex (pyStrip l) with
    | some i => { st with indexes := st.indexes ++ [i] }
    | none => st
  else st

/-- The body loop of `A5erParser._parse_table`. -/
def scanEntity (lines : List Str) : EntityState :=
  lines.foldl entityStep ⟨[], [], [], [], []⟩

/-- `A5erParser._parse_table`: scan the body, then emit a `Table` only if
`physical_name` is non-empty. -/
def parseTable (lines : List Str) : Option Table :=
  if (scanEntity lines).physical_name.isEmpty then none
  else some { physical_name := (scanEntity lines).physical_name
              logical_name := (scanEntity lines).logical_name
              page := (scanEntity lines).page
              columns := (scanEntity lines).columns
              indexes := (scanEntity lines).indexes }

/-- State of the `[Relation]` body scan in `A5erParser._parse_foreign_key`. -/
structure RelationState where
  parent_table : Str
  child_table : Str
  parent_column : Str
  child_column : Str
  deriving Repr, DecidableEq

/-- One iteration of the `[Relation]` body loop. -/
def relationStep (st : RelationState) (l : Str) : RelationState :=
  if ("Entity1=".toList).isPrefixOf (pyStrip l) then
    { st with parent_table := (pyStrip l).drop 8 }
  else if ("Entity2=".toList).isPrefixOf (pyStrip l) then
    { st with child_table := (pyStrip l).drop 8 }
  else if ("Fields1=".toList).isPrefixOf (pyStrip l) then
    { st with parent_column := (pyStrip l).drop 8 }
  else if ("Fields2=".toList).isPrefixOf (pyStrip l) then
    { st with child_column := (pyStrip l).drop 8 }
  else st

/-- The body loop of `A5erParser._parse_foreign_key`. -/
def scanRelation (lines : List Str) : RelationState :=
  lines.foldl relationStep ⟨[], [], [], []⟩

/-- `A5erParser._parse_foreign_key`: scan the body, then emit a
`ForeignKey` only if all four fields are non-empty
(`if not all((...))` in the source). -/
def parseForeignKey (lines : List Str) : Option ForeignKey :=
  if (scanRelation lines).parent_table.isEmpty ||
     (scanRelation lines).child_table.isEmpty ||
     (scanRelation lines).parent_column.isEmpty ||
     (scanRelation lines).child_column.isEmpty then none
  else some { parent_table := (scanRelation lines).parent_table
              child_table := (scanRelation lines).child_table
              parent_column := (scanRelation lines).parent_column
              child_column := (scanRelation lines).child_column }

/-- Head of the rest is `[` (the regex lookahead `(?=\[)`). -/
def headIsBracket : Str → Bool
  | '[' :: _ => true
  | _ => false

/-- Worker for `_SECTION_SPLIT_PATTERN.split`: split on every newline that
is immediately followed by `[`, the newline being consumed. -/
def splitSectionsAux (cur : Str) : Str → List Str
  | [] => [cur.reverse]
  | c :: rest =>
    if c = '\n' && headIsBracket rest then cur.reverse :: splitSectionsAux [] rest
    else splitSectionsAux (c :: cur) rest

/-- `re.split(r"\n(?=\[)", content)` (`A5erParser._iter_sections`). -/
def splitSections (content : Str) : List Str :=
  splitSectionsAux [] content

/-- The body of the section loop in `A5erParser.parse`: strip the section,
split into lines, read the stripped first line as the header, and dispatch
on `[Entity]` / `[Relation]`. -/
def sectionStep (acc : List Table × List ForeignKey) (sec : Str) :
    List Table × List ForeignKey :=
  match splitOnChar '\n' (pyStrip sec) with
  | [] => acc
  | header :: body =>
    let header := pyStrip header
    if header == "[Entity]".toList then
      match parseTable body with
      | some t => (acc.1 ++ [t], acc.2)
      | none => acc
    else if header == "[Relation]".toList then
      match parseForeignKey body with
      | some fk => (acc.1, acc.2 ++ [fk])
      | none => acc
    else acc

/-- `A5erParser.parse` applied to content that already had the BOM check
of `__init__` applied. -/
def parseContent (content : Str) : List Table × List ForeignKey :=
  (splitSections content).foldl sectionStep ([], [])

/-- `A5erParser.__init__`: strip a single leading U+FEFF byte-order mark. -/
def stripBom (s : Str) : Str :=
  match s with
  | [] => []
  | c :: rest => if c = '\uFEFF' then rest else c :: rest

/-- Constructing an `A5erParser` on `content` and calling `.parse()`. -/
def parse (content : Str) : List Table × List ForeignKey :=
  parseContent (stripBom content)

/-! ## RelationIndex

Python dicts are insertion-ordered; they are modelled as association lists
with at most one entry per key.  `setdefault(k, []).append(fk)` appends to
the list of an existing entry in place, or adds a new entry at the end. -/

/-- `d.setdefault(k, []).append(fk)` on an insertion-ordered dict. -/
def setdefaultAppend (m : List (Str × List ForeignKey)) (k : Str) (fk : ForeignKey) :
    List (Str × List ForeignKey) :=
  match m with
  | [] => [(k, [fk])]
  | (k', l) :: rest =>
    if k' = k then (k', l ++ [fk]) :: rest
    else (k', l) :: setdefaultAppend rest k fk

/-- `d.get(k, [])` on the association-list model of a dict. -/
def lookupD (m : List (Str × List ForeignKey)) (q : Str) : List ForeignKey :=
  match m with
  | [] => []
  | (k', l) :: rest => if k' = q then l else lookupD rest q

/-- The two dicts held by a `RelationIndex`. -/
structure RelationIndex where
  outgoing : List (Str × List ForeignKey)
  incoming : List (Str × List ForeignKey)
  deriving Repr, DecidableEq

/-- The loop of `RelationIndex.__init__`. -/
def buildRelationAux (out inc : List (Str × List ForeignKey)) :
    List ForeignKey → RelationIndex
  | [] => ⟨out, inc⟩
  | fk :: rest =>
    buildRelationAux (setdefaultAppend out fk.child_table fk)
      (setdefaultAppend inc fk.parent_table fk) rest

/-- `RelationIndex.__init__` on a list of foreign keys. -/
def RelationIndex.build (fks : List ForeignKey) : RelationIndex :=
  buildRelationAux [] [] fks

/-- `RelationIndex.get_outgoing`. -/
def RelationIndex.get_outgoing (ri : RelationIndex) (t : Str) : List ForeignKey :=
  lookupD ri.outgoing t

/-- `RelationIndex.get_incoming`. -/
def RelationIndex.get_incoming (ri : RelationIndex) (t : Str) : List ForeignKey :=
  lookupD ri.incoming t

/-- Sum of the lengths of all the lists held in a dict. -/
def totalLen (m : List (Str × List ForeignKey)) : Nat :=
  (m.map (fun p => p.2.length)).sum

/-! ## Markdown generator -/

/-- Insert into an insertion-ordered dict of tables (`d[k] = v`). -/
def dictInsert (m : List (Str × Table)) (k : Str) (v : Table) : List (Str × Table) :=
  match m with
  | [] => [(k, v)]
  | (k', v') :: rest =>
    if k' = k then (k', v) :: rest else (k', v') :: dictInsert rest k v

/-- `d.get(k)` on the association-list model of the table dict. -/
def dictGet (m : List (Str × Table)) (q : Str) : Option Table :=
  match m with
  | [] => none
  | (k', v) :: rest => if k' = q then some v else dictGet rest q

/-- `MarkdownGenerator.__init__`: `{t.physical_name: t for t in tables}`. -/
def tableMap (tables : List Table) : List (Str × Table) :=
  tables.foldl (fun m t => dictInsert m t.physical_name t) []

/-- `"✓" if flag else ""`. -/
def boolMark (b : Bool) : Str := if b then "✓".toList else []

/-- One row of the column table in `MarkdownGenerator._write_table`. -/
def columnRow (c : Column) : Str :=
  "| ".toList ++ c.physical_name ++ " | ".toList ++ c.logical_name ++ " | ".toList ++
    c.data_type ++ " | ".toList ++ boolMark c.not_null ++ " | ".toList ++
    boolMark c.is_pk ++ " |\n".toList

/-- One bullet of the index list in `MarkdownGenerator._write_table`. -/
def indexLine (idx : TableIndex) : Str :=
  "- ".toList ++ (if idx.is_unique then "[UNIQUE] ".toList else []) ++ "`".toList ++
    idx.name ++ "`: ".toList ++ List.intercalate (", ".toList) idx.columns ++ "\n".toList

/-- The outgoing-relation label: `f"{fk.parent_table} ({parent.logical_name})"
if parent else fk.parent_table` where `parent = table_map.get(fk.parent_table)`. -/
def fkLabelOut (tm : List (Str × Table)) (fk : ForeignKey) : Str :=
  match dictGet tm fk.parent_table with
  | some parent => fk.parent_table ++ " (".toList ++ parent.logical_name ++ ")".toList
  | none => fk.parent_table

/-- The incoming-relation label: `f"{fk.child_table} ({child.logical_name})"
if child else fk.child_table` where `child = table_map.get(fk.child_table)`. -/
def fkLabelIn (tm : List (Str × Table)) (fk : ForeignKey) : Str :=
  match dictGet tm fk.child_table with
  | some child => fk.child_table ++ " (".toList ++ child.logical_name ++ ")".toList
  | none => fk.child_table

/-- One bullet of the outgoing-relations list. -/
def outgoingLine (tm : List (Str × Table)) (fk : ForeignKey) : Str :=
  "- `".toList ++ fk.child_column ++ "` → `".toList ++ fkLabelOut tm fk ++ ".".toList ++
    fk.parent_column ++ "`\n".toList

/-- One bullet of the incoming-relations list. -/
def incomingLine (tm : List (Str × Table)) (fk : ForeignKey) : Str :=
  "- `".toList ++ fkLabelIn tm fk ++ ".".toList ++ fk.child_column ++ "` → `".toList ++
    fk.parent_column ++ "`\n".toList

/-- `MarkdownGenerator._write_table`: the Markdown block for one table. -/
def writeTable (tm : List (Str × Table)) (ri : RelationIndex) (t : Table) : Str :=
  "### ".toList ++ t.physical_name ++ " (".toList ++ t.logical_name ++ ")\n\n".toList ++
  "#### カラム\n\n".toList ++
  "| 物理名 | 論理名 | 型 | NOT NULL | PK |\n".toList ++
  "|--------|--------|-----|:--------:|:--:|\n".toList ++
  (t.columns.map columnRow).flatten ++ "\n".toList ++
  (if t.indexes.isEmpty then [] else
    "#### インデックス\n\n".toList ++ (t.indexes.map indexLine).flatten ++ "\n".toList) ++
  (let outgoing := ri.get_outgoing t.physical_name
   if outgoing.isEmpty then [] else
    "#### 参照するテーブル (外部キー)\n\n".toList ++
      (outgoing.map (outgoingLine tm)).flatten ++ "\n".toList) ++
  (let incoming := ri.get_incoming t.physical_name
   if incoming.isEmpty then [] else
    "#### 参照されるテーブル\n\n".toList ++
      (incoming.map (incomingLine tm)).flatten ++ "\n".toList) ++
  "---\n\n".toList

/-! ## Helper lemmas -/

/-- `dropLit` succeeds exactly by peeling off the literal. -/
lemma dropLit_sound : ∀ p s r : Str, dropLit p s = some r → s = p ++ r := by
  intro p
  induction p with
  | nil => intro s r h; simpa [dropLit] using h
  | cons x xs ih =>
    intro s r h
    cases s with
    | nil => simp [dropLit] at h
    | cons c cs =>
      rw [dropLit] at h
      split at h
      · rename_i hc
        subst hc
        simpa using ih cs r h
      · exact absurd h (by simp)

/-- `scanGroup` returns the characters strictly before the first `stop`,
and the characters strictly after it. -/
lemma scanGroup_sound (stop : Char) :
    ∀ s g r : Str, scanGroup stop s = some (g, r) → s = g ++ stop :: r ∧ stop ∉ g := by
  intro s
  induction s with
  | nil => intro g r h; simp [scanGroup] at h
  | cons c cs ih =>
    intro g r h
    rw [scanGroup] at h
    split at h
    · rename_i hc
      obtain ⟨rfl, rfl⟩ : ([] : Str) = g ∧ cs = r := by simpa using h
      simp [hc]
    · rename_i hc
      cases hrec : scanGroup stop cs with
      | none => rw [hrec] at h; simp at h
      | some p =>
        obtain ⟨g', r'⟩ := p
        rw [hrec] at h
        obtain ⟨rfl, rfl⟩ : c :: g' = g ∧ r' = r := by simpa using h
        obtain ⟨h1, h2⟩ := ih g' r' hrec
        refine ⟨by simp [h1], ?_⟩
        simp only [List.mem_cons, not_or]
        exact ⟨fun hcc => hc hcc.symm, h2⟩

/-- A literal prefix check on its own append succeeds. -/
lemma isPrefixOf_append (p v : Str) : p.isPrefixOf (p ++ v) = true := by
  induction p with
  | nil => simp [List.isPrefixOf]
  | cons c cs ih => simp [List.isPrefixOf, ih]

/-- `List.isPrefixOf` as an existential decomposition. -/
lemma isPrefixOf_iff_exists (p s : Str) : p.isPrefixOf s = true ↔ ∃ r, s = p ++ r := by
  rw [List.isPrefixOf_iff_prefix]
  exact ⟨fun ⟨r, hr⟩ => ⟨r, hr.symm⟩, fun ⟨r, hr⟩ => ⟨r, hr.symm⟩⟩

/-- Python substring containment as an existential decomposition. -/
lemma containsSub_iff (pat s : Str) :
    containsSub pat s = true ↔ ∃ l r, s = l ++ pat ++ r := by
  induction s with
  | nil =>
    simp only [containsSub, List.isEmpty_iff]
    constructor
    · intro h; exact ⟨[], [], by simp [h]⟩
    · rintro ⟨l, r, h⟩
      have := h.symm
      simp only [List.append_eq_nil] at this
      simp [this.1.2]
  | cons c cs ih =>
    simp only [containsSub, Bool.or_eq_true, ih, isPrefixOf_iff_exists]
    constructor
    · rintro (⟨r, hr⟩ | ⟨l, r, hr⟩)
      · exact ⟨[], r, by simp [hr]⟩
      · exact ⟨c :: l, r, by simp [hr]⟩
    · rintro ⟨l, r, hr⟩
      cases l with
      | nil => exact Or.inl ⟨r, by simpa using hr⟩
      | cons x xs =>
        simp only [List.cons_append, List.cons.injEq] at hr
        exact Or.inr ⟨xs, r, hr.2⟩

/-- Looking up after a `setdefault(k, []).append(fk)`: the list at `k`
gains `fk` at its end, every other list is unchanged. -/
lemma lookupD_setdefaultAppend (m : List (Str × List ForeignKey)) (k t : Str)
    (fk : ForeignKey) :
    lookupD (setdefaultAppend m k fk) t =
      if t = k then lookupD m t ++ [fk] else lookupD m t := by
  induction m with
  | nil =>
    by_cases h : t = k
    · subst h; simp [setdefaultAppend, lookupD]
    · simp [setdefaultAppend, lookupD, h, Ne.symm h]
  | cons hd tl ih =>
    obtain ⟨k', l⟩ := hd
    by_cases h1 : k' = k
    · subst h1
      by_cases h2 : t = k'
      · subst h2; simp [setdefaultAppend, lookupD]
      · simp [setdefaultAppend, lookupD, h2, Ne.symm h2]
    · by_cases h2 : k' = t
      · subst h2
        simp [setdefaultAppend, lookupD, h1, Ne.symm h1]
      · simp [setdefaultAppend, lookupD, h1, h2, ih]

/-- A `setdefault(k, []).append(fk)` grows the total size by one. -/
lemma totalLen_setdefaultAppend (m : List (Str × List ForeignKey)) (k : Str)
    (fk : ForeignKey) :
    totalLen (setdefaultAppend m k fk) = totalLen m + 1 := by
  induction m with
  | nil => simp [setdefaultAppend, totalLen]
  | cons hd tl ih =>
    obtain ⟨k', l⟩ := hd
    by_cases h : k' = k
    · simp [setdefaultAppend, totalLen, h]
      omega
    · simp only [setdefaultAppend, if_neg h, totalLen, List.map_cons, List.sum_cons] at *
      omega

/-- The outgoing dict built by the `RelationIndex` loop holds, at each
table name, exactly the input foreign keys whose `child_table` is that
name, in input order. -/
lemma buildRelationAux_outgoing (fks : List ForeignKey) :
    ∀ out inc t, lookupD (buildRelationAux out inc fks).outgoing t =
      lookupD out t ++ fks.filter (fun fk => fk.child_table == t) := by
  induction fks with
  | nil => intro out inc t; simp [buildRelationAux]
  | cons fk rest ih =>
    intro out inc t
    rw [buildRelationAux, ih, lookupD_setdefaultAppend, List.filter_cons]
    cases hb : fk.child_table == t
    · have hne : ¬ t = fk.child_table := fun hh => by simp [hh] at hb
      simp [hb, hne]
    · have heq : t = fk.child_table := (beq_iff_eq.mp hb).symm
      simp [hb, heq, List.append_assoc]

/-- Same for the incoming dict, with `parent_table`. -/
lemma buildRelationAux_incoming (fks : List ForeignKey) :
    ∀ out inc t, lookupD (buildRelationAux out inc fks).incoming t =
      lookupD inc t ++ fks.filter (fun fk => fk.parent_table == t) := by
  induction fks with
  | nil => intro out inc t; simp [buildRelationAux]
  | cons fk rest ih =>
    intro out inc t
    rw [buildRelationAux, ih, lookupD_setdefaultAppend, List.filter_cons]
    cases hb : fk.parent_table == t
    · have hne : ¬ t = fk.parent_table := fun hh => by simp [hh] at hb
      simp [hb, hne]
    · have heq : t = fk.parent_table := (beq_iff_eq.mp hb).symm
      simp [hb, heq, List.append_assoc]

/-- Total size of the outgoing dict after the loop. -/
lemma buildRelationAux_outgoing_len (fks : List ForeignKey) :
    ∀ out inc, totalLen (buildRelationAux out inc fks).outgoing =
      totalLen out + fks.length := by
  induction fks with
  | nil => intro out inc; simp [buildRelationAux]
  | cons fk rest ih =>
    intro out inc
    rw [buildRelationAux, ih, totalLen_setdefaultAppend, List.length_cons]
    omega

/-- Total size of the incoming dict after the loop. -/
lemma buildRelationAux_incoming_len (fks : List ForeignKey) :
    ∀ out inc, totalLen (buildRelationAux out inc fks).incoming =
      totalLen inc + fks.length := by
  induction fks with
  | nil => intro out inc; simp [buildRelationAux]
  | cons fk rest ih =>
    intro out inc
    rw [buildRelationAux, ih, totalLen_setdefaultAppend, List.length_cons]
    omega

/-- `entityStep` touches `physical_name` exactly on `PName=` lines. -/
lemma entityStep_physical_name (st : EntityState) (l : Str) :
    (entityStep st l).physical_name =
      if ("PName=".toList).isPrefixOf (pyStrip l) then (pyStrip l).drop 6
      else st.physical_name := by
  by_cases h1 : (("PName=".toList).isPrefixOf (pyStrip l)) = true
  · unfold entityStep
    rw [if_pos h1, if_pos h1]
  · unfold entityStep
    rw [if_neg h1, if_neg h1]
    split
    · rfl
    · split
      · rfl
      · split
        · split <;> rfl
        · split
          · split <;> rfl
          · rfl

/-- `relationStep` leaves `child_column` alone on lines that are not
`Fields2=` lines. -/
lemma relationStep_cc_of_not (st : RelationState) (l : Str)
    (h : ("Fields2=".toList).isPrefixOf (pyStrip l) = false) :
    (relationStep st l).child_column = st.child_column := by
  unfold relationStep
  split
  · rfl
  · split
    · rfl
    · split
      · rfl
      · have h' : ¬ ("Fields2=".toList).isPrefixOf (pyStrip l) = true := by
          simp only [h]; exact Bool.false_ne_true
        rw [if_neg h']

/-- If no body line is a `PName=` line with a non-empty value, the
`[Entity]` scan never sets `physical_name`. -/
lemma scanEntity_pname_empty (lines : List Str)
    (hall : ∀ l ∈ lines, ("PName=".toList).isPrefixOf (pyStrip l) = true →
      (pyStrip l).drop 6 = []) :
    (scanEntity lines).physical_name = [] := by
  rw [scanEntity]
  have main : ∀ ls : List Str, ∀ st : EntityState, st.physical_name = [] →
      (∀ l ∈ ls, ("PName=".toList).isPrefixOf (pyStrip l) = true →
        (pyStrip l).drop 6 = []) →
      (List.foldl entityStep st ls).physical_name = [] := by
    intro ls
    induction ls with
    | nil => intro st h _; simpa using h
    | cons x xs ih =>
      intro st h hall2
      rw [List.foldl_cons]
      refine ih _ ?_ (fun l hl => hall2 l (List.mem_cons_of_mem _ hl))
      rw [entityStep_physical_name]
      by_cases hx : ("PName=".toList).isPrefixOf (pyStrip x) = true
      · rw [if_pos hx]; exact hall2 x (List.mem_cons_self _ _) hx
      · rw [if_neg hx]; exact h
  exact main lines ⟨[], [], [], [], []⟩ rfl hall

/-- If no body line is a `Fields2=` line, the `[Relation]` scan never
sets `child_column`. -/
lemma scanRelation_cc_empty (lines : List Str)
    (hall : ∀ l ∈ lines, ("Fields2=".toList).isPrefixOf (pyStrip l) = false) :
    (scanRelation lines).child_column = [] := by
  rw [scanRelation]
  have main : ∀ ls : List Str, ∀ st : RelationState, st.child_column = [] →
      (∀ l ∈ ls, ("Fields2=".toList).isPrefixOf (pyStrip l) = false) →
      (List.foldl relationStep st ls).child_column = [] := by
    intro ls
    induction ls with
    | nil => intro st h _; simpa using h
    | cons x xs ih =>
      intro st h hall2
      rw [List.foldl_cons]
      refine ih _ ?_ (fun l hl => hall2 l (List.mem_cons_of_mem _ hl))
      rw [relationStep_cc_of_not st x (hall2 x (List.mem_cons_self _ _))]
      exact h
  exact main lines ⟨[], [], [], []⟩ rfl hall

/-! ## Concrete inputs used by the claims -/

/-- The round-trip scenario input from the specification. -/
def sampleDoc : Str :=
  ("[Entity]\nPName=users\nLName=User\nPage=Main\nField=\"ID\",\"id\",\"INTEGER\",\"NOT NULL\",0\nField=\"Name\",\"name\",\"VARCHAR\",\"\",1\nIndex=idx_name=0,name\n[Relation]\nEntity1=users\nEntity2=orders\nFields1=id\nFields2=user_id").toList

/-- The `users` table of the round-trip scenario. -/
def usersTable : Table :=
  { physical_name := "users".toList, logical_name := "User".toList, page := "Main".toList,
    columns := [
      { logical_name := "ID".toList, physical_name := "id".toList,
        data_type := "INTEGER".toList, not_null := true, is_pk := true },
      { logical_name := "Name".toList, physical_name := "name".toList,
        data_type := "VARCHAR".toList, not_null := false, is_pk := false }],
    indexes := [{ name := "idx_name".toList, is_unique := false,
                  columns := ["name".toList] }] }

/-- The `users` → `orders` foreign key of the round-trip scenario. -/
def usersOrdersFk : ForeignKey :=
  { parent_table := "users".toList, child_table := "orders".toList,
    parent_column := "id".toList, child_column := "user_id".toList }

/-! ## Claim theorems -/

/-- C1: parsing the round-trip sample input yields exactly one `Table`
(`users`, logical name `User`, page `Main`, columns `id` then `name` with
the stated flags, one non-unique index `idx_name` over `[name]`) and
exactly one `ForeignKey` (`users` → `orders`, `id` → `user_id`). -/
theorem roundtrip_sample_parse :
    parse sampleDoc = ([usersTable], [usersOrdersFk]) := by decide

/-- C2: for every line matched by the Field pattern, the parsed column's
`is_pk` is true iff the trailing token (group 5) trims to exactly `"0"`;
tokens `0` and ` 0 ` give `true`, `1` and the empty token give `false`. -/
theorem pk_flag_iff_zero :
    (∀ line g1 g2 g3 g4 g5, matchField line = some (g1, g2, g3, g4, g5) →
      ∃ c, parseColumn line = some c ∧ (c.is_pk = true ↔ pyStrip g5 = "0".toList)) ∧
    (parseColumn ("Field=\"A\",\"a\",\"INT\",\"\",0".toList)).map Column.is_pk = some true ∧
    (parseColumn ("Field=\"A\",\"a\",\"INT\",\"\", 0 ".toList)).map Column.is_pk = some true ∧
    (parseColumn ("Field=\"A\",\"a\",\"INT\",\"\",1".toList)).map Column.is_pk = some false ∧
    (parseColumn ("Field=\"A\",\"a\",\"INT\",\"\",".toList)).map Column.is_pk = some false := by
  refine ⟨?_, by decide, by decide, by decide, by decide⟩
  intro line g1 g2 g3 g4 g5 h
  unfold parseColumn
  rw [h]
  exact ⟨_, rfl, beq_iff_eq⟩

/-- C2 witness: the general part applied to the concrete line
`Field="A","a","INT","",0`. -/
theorem pk_flag_iff_zero_witness :
    ∃ c, parseColumn ("Field=\"A\",\"a\",\"INT\",\"\",0".toList) = some c ∧
      (c.is_pk = true ↔ pyStrip ("0".toList) = "0".toList) :=
  pk_flag_iff_zero.1 ("Field=\"A\",\"a\",\"INT\",\"\",0".toList)
    ("A".toList) ("a".toList) ("INT".toList) [] ("0".toList) (by decide)

/-- C3: for every line matched by the Field pattern, the parsed column's
`not_null` is true iff the upper-cased constraints segment (group 4)
contains `NOT NULL` as a substring; `NOT NULL` and `not null` give
`true`, `NULL` and the empty segment give `false`. -/
theorem not_null_iff_substring :
    (∀ line g1 g2 g3 g4 g5, matchField line = some (g1, g2, g3, g4, g5) →
      ∃ c, parseColumn line = some c ∧
        (c.not_null = true ↔ ∃ l r, toUpperL g4 = l ++ "NOT NULL".toList ++ r)) ∧
    (parseColumn ("Field=\"A\",\"a\",\"INT\",\"NOT NULL\",1".toList)).map Column.not_null
      = some true ∧
    (parseColumn ("Field=\"A\",\"a\",\"INT\",\"not null\",1".toList)).map Column.not_null
      = some true ∧
    (parseColumn ("Field=\"A\",\"a\",\"INT\",\"NULL\",1".toList)).map Column.not_null
      = some false ∧
    (parseColumn ("Field=\"A\",\"a\",\"INT\",\"\",1".toList)).map Column.not_null
      = some false := by
  refine ⟨?_, by decide, by decide, by decide, by decide⟩
  intro line g1 g2 g3 g4 g5 h
  unfold parseColumn
  rw [h]
  exact ⟨_, rfl, containsSub_iff _ _⟩

/-- C3 witness: the general part applied to the concrete line
`Field="A","a","INT","NOT NULL",1`. -/
theorem not_null_iff_substring_witness :
    ∃ c, parseColumn ("Field=\"A\",\"a\",\"INT\",\"NOT NULL\",1".toList) = some c ∧
      (c.not_null = true ↔
        ∃ l r, toUpperL ("NOT NULL".toList) = l ++ "NOT NULL".toList ++ r) :=
  not_null_iff_substring.1 ("Field=\"A\",\"a\",\"INT\",\"NOT NULL\",1".toList)
    ("A".toList) ("a".toList) ("INT".toList) ("NOT NULL".toList) ("1".toList) (by decide)

/-- C4: the `RelationIndex` built from `N` foreign keys partitions them:
the outgoing (resp. incoming) lists jointly hold all `N` keys, each list
holds exactly the keys with the matching `child_table` (resp.
`parent_table`) in input order, and lookups for a table named in no
foreign key return the empty list. -/
theorem relation_index_partition (fks : List ForeignKey) :
    totalLen (RelationIndex.build fks).outgoing = fks.length ∧
    totalLen (RelationIndex.build fks).incoming = fks.length ∧
    (∀ t, (RelationIndex.build fks).get_outgoing t =
      fks.filter (fun fk => fk.child_table == t)) ∧
    (∀ t, (RelationIndex.build fks).get_incoming t =
      fks.filter (fun fk => fk.parent_table == t)) ∧
    (∀ t, (∀ fk ∈ fks, fk.child_table ≠ t ∧ fk.parent_table ≠ t) →
      (RelationIndex.build fks).get_outgoing t = [] ∧
      (RelationIndex.build fks).get_incoming t = []) := by
  have hout : ∀ t, (RelationIndex.build fks).get_outgoing t =
      fks.filter (fun fk => fk.child_table == t) := by
    intro t
    rw [RelationIndex.build, RelationIndex.get_outgoing, buildRelationAux_outgoing]
    simp [lookupD]
  have hinc : ∀ t, (RelationIndex.build fks).get_incoming t =
      fks.filter (fun fk => fk.parent_table == t) := by
    intro t
    rw [RelationIndex.build, RelationIndex.get_incoming, buildRelationAux_incoming]
    simp [lookupD]
  refine ⟨?_, ?_, hout, hinc, ?_⟩
  · rw [RelationIndex.build, buildRelationAux_outgoing_len]
    simp [totalLen]
  · rw [RelationIndex.build, buildRelationAux_incoming_len]
    simp [totalLen]
  · intro t h
    constructor
    · rw [hout t, List.filter_eq_nil_iff]
      intro fk hfk
      simp [(h fk hfk).1]
    · rw [hinc t, List.filter_eq_nil_iff]
      intro fk hfk
      simp [(h fk hfk).2]

/-- C4 witness: the absent-table part applied to the singleton list
holding the round-trip foreign key and the table name `products`. -/
theorem relation_index_partition_witness :
    (RelationIndex.build [usersOrdersFk]).get_outgoing ("products".toList) = [] ∧
    (RelationIndex.build [usersOrdersFk]).get_incoming ("products".toList) = [] :=
  (relation_index_partition [usersOrdersFk]).2.2.2.2 ("products".toList) (by decide)

/-- An input that itself starts with a byte-order mark: prepending a
second mark changes the parse, because `__init__` strips only one. -/
def bomDoc : Str := "\uFEFF[Entity]\nPName=x".toList

/-- C5 counterexample: for `s` already starting with U+FEFF, parsing
`'\uFEFF' :: s` differs from parsing `s` (the corrupted header makes the
entity section vanish). -/
theorem bom_prepend_counterexample :
    parse ('\uFEFF' :: bomDoc) ≠ parse bomDoc := by decide

/-- C5 amended: for every input that does not already start with U+FEFF,
prepending a single byte-order mark leaves the parse unchanged. -/
theorem bom_prepend_parse_eq (s : Str) (h : s.head? ≠ some '\uFEFF') :
    parse ('\uFEFF' :: s) = parse s := by
  have h1 : stripBom ('\uFEFF' :: s) = s := by simp [stripBom]
  have h2 : stripBom s = s := by
    cases s with
    | nil => rfl
    | cons c cs =>
      have hc : ¬ c = '\uFEFF' := by
        intro hcc
        exact h (by simp [hcc])
      simp [stripBom, hc]
  rw [parse, parse, h1, h2]

/-- C5 witness: the amended statement applied to the round-trip sample
input. -/
theorem bom_prepend_parse_eq_witness :
    parse ('\uFEFF' :: sampleDoc) = parse sampleDoc :=
  bom_prepend_parse_eq sampleDoc (by decide)

/-- An `[Entity]` section without any `PName=` line, followed by a good
one; only the second yields a table. -/
def docNoPName : Str :=
  ("[Entity]\nLName=NoName\nField=\"A\",\"a\",\"INT\",\"\",0\n[Entity]\nPName=good\nLName=G\nPage=P").toList

/-- The table produced by the second section of `docNoPName`. -/
def goodTable : Table :=
  { physical_name := "good".toList, logical_name := "G".toList, page := "P".toList,
    columns := [], indexes := [] }

/-- C6: an `[Entity]` body with no `PName=` line carrying a non-empty
value produces no table; in a document, such a section contributes
nothing while the rest is still parsed. -/
theorem entity_without_pname :
    (∀ lines, (∀ l ∈ lines, ("PName=".toList).isPrefixOf (pyStrip l) = true →
        (pyStrip l).drop 6 = []) → parseTable lines = none) ∧
    parse docNoPName = ([goodTable], []) := by
  refine ⟨?_, by decide⟩
  intro lines hall
  have hp := scanEntity_pname_empty lines hall
  simp [parseTable, hp]

/-- C6 witness: the general part applied to the one-line body
`LName=x`. -/
theorem entity_without_pname_witness :
    parseTable (["LName=x".toList]) = none :=
  entity_without_pname.1 ["LName=x".toList] (by decide)

/-- A `[Relation]` section with no `Fields2=` line. -/
def docNoFields2 : Str :=
  ("[Relation]\nEntity1=users\nEntity2=orders\nFields1=id").toList

/-- C7: a `ForeignKey` is emitted only when all four final field values
are non-empty; a `[Relation]` body with no `Fields2=` line produces no
foreign key, and a document holding only such a section parses to
nothing. -/
theorem relation_requires_all_fields :
    (∀ lines fk, parseForeignKey lines = some fk →
      fk.parent_table ≠ [] ∧ fk.child_table ≠ [] ∧
      fk.parent_column ≠ [] ∧ fk.child_column ≠ []) ∧
    (∀ lines, (∀ l ∈ lines, ("Fields2=".toList).isPrefixOf (pyStrip l) = false) →
      parseForeignKey lines = none) ∧
    parse docNoFields2 = ([], []) := by
  refine ⟨?_, ?_, by decide⟩
  · intro lines fk h
    unfold parseForeignKey at h
    split at h
    · exact absurd h (by simp)
    · rename_i hcond
      rw [Option.some_inj] at h
      subst h
      simp only [Bool.or_eq_true, not_or, List.isEmpty_iff] at hcond
      obtain ⟨⟨⟨h1, h2⟩, h3⟩, h4⟩ := hcond
      exact ⟨h1, h2, h3, h4⟩
  · intro lines hall
    have hc := scanRelation_cc_empty lines hall
    simp [parseForeignKey, hc]

/-- C7 witness: the emitted-only-if-non-empty part applied to a complete
concrete `[Relation]` body. -/
theorem relation_requires_all_fields_witness :
    usersOrdersFk.parent_table ≠ [] ∧ usersOrdersFk.child_table ≠ [] ∧
    usersOrdersFk.parent_column ≠ [] ∧ usersOrdersFk.child_column ≠ [] :=
  relation_requires_all_fields.1
    ["Entity1=users".toList, "Entity2=orders".toList,
     "Fields1=id".toList, "Fields2=user_id".toList]
    usersOrdersFk (by decide)

/-- C8: on every line the Index pattern accepts, the `TableIndex` name is
exactly the segment strictly between `Index=` and the next `=`,
`is_unique` holds exactly when the flag group equals `"1"`, and the
columns are the comma-split remainder with each token trimmed. -/
theorem index_line_semantics :
    (∀ line g1 g2 g3, matchIndex line = some (g1, g2, g3) →
      (∃ rest, line = "Index=".toList ++ g1 ++ '=' :: rest ∧ '=' ∉ g1) ∧
      parseIndex line = some { name := g1, is_unique := g2 == "1".toList,
                               columns := (splitOnChar ',' g3).map pyStrip } ∧
      ((g2 == "1".toList) = true ↔ g2 = "1".toList)) ∧
    parseIndex ("Index=idx_ab=1, x , y".toList) =
      some { name := "idx_ab".toList, is_unique := true,
             columns := ["x".toList, "y".toList] } ∧
    parseIndex ("Index=i=2,a".toList) =
      some { name := "i".toList, is_unique := false, columns := ["a".toList] } := by
  refine ⟨?_, by decide, by decide⟩
  intro line g1 g2 g3 h
  have h0 := h
  refine ⟨?_, ?_, beq_iff_eq⟩
  · unfold matchIndex at h
    split at h
    · exact absurd h (by simp)
    · rename_i r0 hd
      split at h
      · exact absurd h (by simp)
      · rename_i p g1' r1 hs
        split at h
        · exact absurd h (by simp)
        · split at h
          · exact absurd h (by simp)
          · split at h
            · exact absurd h (by simp)
            · rename_i r2 he
              split at h
              · exact absurd h (by simp)
              · rw [Option.some_inj, Prod.mk.injEq, Prod.mk.injEq] at h
                obtain ⟨h1, h2, h3⟩ := h
                subst h1
                obtain ⟨hr0, hnotin⟩ := scanGroup_sound '=' r0 g1' r1 hs
                refine ⟨r1, ?_, hnotin⟩
                rw [dropLit_sound _ _ _ hd, hr0]
                simp
  · unfold parseIndex
    rw [h0]

/-- C8 witness: the general part applied to the concrete line
`Index=idx_ab=1, x , y`. -/
theorem index_line_semantics_witness :
    (∃ rest, ("Index=idx_ab=1, x , y".toList) =
        "Index=".toList ++ "idx_ab".toList ++ '=' :: rest ∧ '=' ∉ "idx_ab".toList) ∧
    parseIndex ("Index=idx_ab=1, x , y".toList) =
      some { name := "idx_ab".toList, is_unique := ("1".toList == "1".toList),
             columns := (splitOnChar ',' (" x , y".toList)).map pyStrip } ∧
    (("1".toList == "1".toList) = true ↔ ("1".toList : Str) = "1".toList) :=
  index_line_semantics.1 ("Index=idx_ab=1, x , y".toList)
    ("idx_ab".toList) ("1".toList) (" x , y".toList) (by decide)

/-- A table that holds a dangling outgoing reference to `users` when the
table map contains only `orders`. -/
def ordersTable : Table :=
  { physical_name := "orders".toList, logical_name := "Order".toList,
    page := "Main".toList, columns := [], indexes := [] }

/-- C9: the relation labels of `_write_table` fall back to the bare table
name exactly when the referenced table is absent from the table map, and
append ` (logical_name)` when it is present; concretely, rendering
`orders` with a foreign key to a missing `users` table emits
`- ‵user_id‵ → ‵users.id‵` and completes, while with `users` present it
emits `- ‵user_id‵ → ‵users (User).id‵`. -/
theorem dangling_reference_fallback :
    (∀ tm fk, dictGet tm fk.parent_table = none →
      fkLabelOut tm fk = fk.parent_table) ∧
    (∀ tm fk p, dictGet tm fk.parent_table = some p →
      fkLabelOut tm fk = fk.parent_table ++ " (".toList ++ p.logical_name ++ ")".toList) ∧
    (∀ tm fk, dictGet tm fk.child_table = none →
      fkLabelIn tm fk = fk.child_table) ∧
    (∀ tm fk c, dictGet tm fk.child_table = some c →
      fkLabelIn tm fk = fk.child_table ++ " (".toList ++ c.logical_name ++ ")".toList) ∧
    containsSub ("- `user_id` → `users.id`\n".toList)
      (writeTable (tableMap [ordersTable]) (RelationIndex.build [usersOrdersFk])
        ordersTable) = true ∧
    containsSub ("- `user_id` → `users (User).id`\n".toList)
      (writeTable (tableMap [ordersTable, usersTable]) (RelationIndex.build [usersOrdersFk])
        ordersTable) = true := by
  refine ⟨?_, ?_, ?_, ?_, by decide, by decide⟩
  · intro tm fk h; unfold fkLabelOut; rw [h]
  · intro tm fk p h; unfold fkLabelOut; rw [h]
  · intro tm fk h; unfold fkLabelIn; rw [h]
  · intro tm fk c h; unfold fkLabelIn; rw [h]

/-- C9 witness: the fallback part applied to the concrete dangling map. -/
theorem dangling_reference_fallback_witness :
    fkLabelOut (tableMap [ordersTable]) usersOrdersFk = usersOrdersFk.parent_table :=
  dangling_reference_fallback.1 (tableMap [ordersTable]) usersOrdersFk (by decide)

/-- A `Bool` known to be `false` is not `true`. -/
lemma neTrue_of_false {b : Bool} (h : b = false) : ¬ b = true := fun hh => by
  rw [h] at hh
  exact Bool.false_ne_true hh

/-- `entityStep` on a clean `PName=` line overwrites `physical_name`. -/
lemma entityStep_pname_set (st : EntityState) (v : Str)
    (hc : pyStrip ("PName=".toList ++ v) = "PName=".toList ++ v) :
    entityStep st ("PName=".toList ++ v) = { st with physical_name := v } := by
  unfold entityStep
  rw [hc, if_pos (isPrefixOf_append _ _),
      List.drop_left' (show ("PName=".toList).length = 6 from rfl)]

/-- `entityStep` on a clean `LName=` line overwrites `logical_name`. -/
lemma entityStep_lname_set (st : EntityState) (v : Str)
    (hc : pyStrip ("LName=".toList ++ v) = "LName=".toList ++ v) :
    entityStep st ("LName=".toList ++ v) = { st with logical_name := v } := by
  unfold entityStep
  rw [hc, if_neg (neTrue_of_false (show ("PName=".toList).isPrefixOf ("LName=".toList ++ v) = false from rfl)),
      if_pos (isPrefixOf_append _ _),
      List.drop_left' (show ("LName=".toList).length = 6 from rfl)]

/-- `entityStep` on a clean `Page=` line overwrites `page`. -/
lemma entityStep_page_set (st : EntityState) (v : Str)
    (hc : pyStrip ("Page=".toList ++ v) = "Page=".toList ++ v) :
    entityStep st ("Page=".toList ++ v) = { st with page := v } := by
  unfold entityStep
  rw [hc, if_neg (neTrue_of_false (show ("PName=".toList).isPrefixOf ("Page=".toList ++ v) = false from rfl)),
      if_neg (neTrue_of_false (show ("LName=".toList).isPrefixOf ("Page=".toList ++ v) = false from rfl)),
      if_pos (isPrefixOf_append _ _),
      List.drop_left' (show ("Page=".toList).length = 5 from rfl)]

/-- `relationStep` on a clean `Entity1=` line overwrites `parent_table`. -/
lemma relationStep_e1_set (st : RelationState) (v : Str)
    (hc : pyStrip ("Entity1=".toList ++ v) = "Entity1=".toList ++ v) :
    relationStep st ("Entity1=".toList ++ v) = { st with parent_table := v } := by
  unfold relationStep
  rw [hc, if_pos (isPrefixOf_append _ _),
      List.drop_left' (show ("Entity1=".toList).length = 8 from rfl)]

/-- `relationStep` on a clean `Entity2=` line overwrites `child_table`. -/
lemma relationStep_e2_set (st : RelationState) (v : Str)
    (hc : pyStrip ("Entity2=".toList ++ v) = "Entity2=".toList ++ v) :
    relationStep st ("Entity2=".toList ++ v) = { st with child_table := v } := by
  unfold relationStep
  rw [hc, if_neg (neTrue_of_false (show ("Entity1=".toList).isPrefixOf ("Entity2=".toList ++ v) = false from rfl)),
      if_pos (isPrefixOf_append _ _),
      List.drop_left' (show ("Entity2=".toList).length = 8 from rfl)]

/-- `relationStep` on a clean `Fields1=` line overwrites `parent_column`. -/
lemma relationStep_f1_set (st : RelationState) (v : Str)
    (hc : pyStrip ("Fields1=".toList ++ v) = "Fields1=".toList ++ v) :
    relationStep st ("Fields1=".toList ++ v) = { st with parent_column := v } := by
  unfold relationStep
  rw [hc, if_neg (neTrue_of_false (show ("Entity1=".toList).isPrefixOf ("Fields1=".toList ++ v) = false from rfl)),
      if_neg (neTrue_of_false (show ("Entity2=".toList).isPrefixOf ("Fields1=".toList ++ v) = false from rfl)),
      if_pos (isPrefixOf_append _ _),
      List.drop_left' (show ("Fields1=".toList).length = 8 from rfl)]

/-- `relationStep` on a clean `Fields2=` line overwrites `child_column`. -/
lemma relationStep_f2_set (st : RelationState) (v : Str)
    (hc : pyStrip ("Fields2=".toList ++ v) = "Fields2=".toList ++ v) :
    relationStep st ("Fields2=".toList ++ v) = { st with child_column := v } := by
  unfold relationStep
  rw [hc, if_neg (neTrue_of_false (show ("Entity1=".toList).isPrefixOf ("Fields2=".toList ++ v) = false from rfl)),
      if_neg (neTrue_of_false (show ("Entity2=".toList).isPrefixOf ("Fields2=".toList ++ v) = false from rfl)),
      if_neg (neTrue_of_false (show ("Fields1=".toList).isPrefixOf ("Fields2=".toList ++ v) = false from rfl)),
      if_pos (isPrefixOf_append _ _),
      List.drop_left' (show ("Fields2=".toList).length = 8 from rfl)]

/-- C10: within one section the last scalar-prefix line wins: appending a
clean `PName=`/`LName=`/`Page=` (resp. `Entity1=`/`Entity2=`/`Fields1=`/
`Fields2=`) line makes its value the scanned value, whatever came before;
concretely, repeated lines keep the last value and the emptiness check
for emission applies to the final values. -/
theorem last_scalar_wins :
    (∀ lines v, pyStrip ("PName=".toList ++ v) = "PName=".toList ++ v →
      (scanEntity (lines ++ [("PName=".toList ++ v)])).physical_name = v) ∧
    (∀ lines v, pyStrip ("LName=".toList ++ v) = "LName=".toList ++ v →
      (scanEntity (lines ++ [("LName=".toList ++ v)])).logical_name = v) ∧
    (∀ lines v, pyStrip ("Page=".toList ++ v) = "Page=".toList ++ v →
      (scanEntity (lines ++ [("Page=".toList ++ v)])).page = v) ∧
    (∀ lines v, pyStrip ("Entity1=".toList ++ v) = "Entity1=".toList ++ v →
      (scanRelation (lines ++ [("Entity1=".toList ++ v)])).parent_table = v) ∧
    (∀ lines v, pyStrip ("Entity2=".toList ++ v) = "Entity2=".toList ++ v →
      (scanRelation (lines ++ [("Entity2=".toList ++ v)])).child_table = v) ∧
    (∀ lines v, pyStrip ("Fields1=".toList ++ v) = "Fields1=".toList ++ v →
      (scanRelation (lines ++ [("Fields1=".toList ++ v)])).parent_column = v) ∧
    (∀ lines v, pyStrip ("Fields2=".toList ++ v) = "Fields2=".toList ++ v →
      (scanRelation (lines ++ [("Fields2=".toList ++ v)])).child_column = v) ∧
    parseTable ["PName=a".toList, "PName=b".toList] =
      some { physical_name := "b".toList, logical_name := [], page := [],
             columns := [], indexes := [] } ∧
    parseForeignKey ["Entity1=x".toList, "Entity1=y".toList, "Entity2=c".toList,
        "Fields1=p".toList, "Fields2=q".toList] =
      some { parent_table := "y".toList, child_table := "c".toList,
             parent_column := "p".toList, child_column := "q".toList } ∧
    parseForeignKey ["Entity1=x".toList, "Entity2=c".toList, "Fields1=p".toList,
        "Fields2=q".toList, "Entity1=".toList] = none := by
  refine ⟨?_, ?_, ?_, ?_, ?_, ?_, ?_, by decide, by decide, by decide⟩
  · intro lines v hc
    rw [scanEntity, List.foldl_append, List.foldl_cons, List.foldl_nil,
        entityStep_pname_set _ _ hc]
  · intro lines v hc
    rw [scanEntity, List.foldl_append, List.foldl_cons, List.foldl_nil,
        entityStep_lname_set _ _ hc]
  · intro lines v hc
    rw [scanEntity, List.foldl_append, List.foldl_cons, List.foldl_nil,
        entityStep_page_set _ _ hc]
  · intro lines v hc
    rw [scanRelation, List.foldl_append, List.foldl_cons, List.foldl_nil,
        relationStep_e1_set _ _ hc]
  · intro lines v hc
    rw [scanRelation, List.foldl_append, List.foldl_cons, List.foldl_nil,
        relationStep_e2_set _ _ hc]
  · intro lines v hc
    rw [scanRelation, List.foldl_append, List.foldl_cons, List.foldl_nil,
        relationStep_f1_set _ _ hc]
  · intro lines v hc
    rw [scanRelation, List.foldl_append, List.foldl_cons, List.foldl_nil,
        relationStep_f2_set _ _ hc]

/-- C10 witness: the `PName=` part applied after an earlier `PName=a`
line. -/
theorem last_scalar_wins_witness :
    (scanEntity (["PName=a".toList] ++ [("PName=".toList ++ "b".toList)])).physical_name
      = "b".toList :=
  last_scalar_wins.1 ["PName=a".toList] ("b".toList) (by decide)

end A5er
